import Mathlib

/-!
Verification of the HemeLB lattice-Boltzmann collision/streaming core and
auxiliary components, as a shallow embedding in Lean 4.

Embedded source files:
* `src/Code/lb/collisions/ImplGuoZhengShi.cc` — the bulk BGK collision-streaming
  loop and the Guo–Zheng–Shi near-wall boundary treatment.
* `src/Code/colloids/BoundaryConditions.cc` — the colloid particle boundary
  dispatch, including the per-direction wall-distance clamp.
* `src/Code/vis/ColPixel.h` — the pixel-coordinate words with flag bits.

C++ `double` arithmetic is embedded as exact rational (`ℚ`) arithmetic; the
claims under study are algebraic identities of the computation, not
floating-point rounding statements.  Machine `unsigned int` words (ColPixel)
are embedded as `ℕ` with the same bitwise operations; no arithmetic overflow
occurs in the embedded operations.

The `D3Q15` lattice routines (`CalculateDensityVelocityFEq`, `CalculateFeq`,
`INVERSEDIRECTIONS`, the direction vectors) are declared and called throughout
`src/` but their defining translation unit is not part of the provided
sources; they are modelled from the spec where so marked.
-/

/-! ## Definitions -/

namespace HemeLB

/-- A slot of the flattened distribution array `FNew`: the C++ index
`site * NUMVECTORS + direction` is decomposed as a (site, direction) pair. -/
abbrev Slot : Type := ℕ × Fin 15

/-- One store into the `FNew` array: a slot together with the value written. -/
abbrev FWrite : Type := Slot × ℚ

/-- Point update of a buffer, as performed by a single C++ array store. -/
def writeAt (F : Slot → ℚ) (k : Slot) (v : ℚ) : Slot → ℚ :=
  fun t => if t = k then v else F t

/-- Sequential execution of a list of array stores, earlier stores first
(so a later store to the same slot wins, as in the C++ loops). -/
def applyWrites (F : Slot → ℚ) (ws : List FWrite) : Slot → ℚ :=
  ws.foldl (fun G w => writeAt G w.1 w.2) F

end HemeLB

namespace D3Q15

/-- Modelled from the spec: the D3Q15 discrete velocity set used by every
caller in `src/` (`D3Q15::NUMVECTORS = 15`); spec §2/§3: a fixed small set of
3-D integer direction vectors, direction 0 the zero/rest vector, and (per the
comment in `src/Code/colloids/BoundaryConditions.cc`) directions 1–6 the
face-of-a-cube unit vectors; 7–14 are the cube-corner vectors, inverse pairs
adjacent.  The defining translation unit of `D3Q15` is not under `src/`.
These are the x-components. -/
def CX : Fin 15 → ℚ := ![0, 1, -1, 0, 0, 0, 0, 1, -1, 1, -1, 1, -1, 1, -1]

/-- Modelled from the spec: y-components of the D3Q15 direction vectors. -/
def CY : Fin 15 → ℚ := ![0, 0, 0, 1, -1, 0, 0, 1, -1, 1, -1, -1, 1, -1, 1]

/-- Modelled from the spec: z-components of the D3Q15 direction vectors. -/
def CZ : Fin 15 → ℚ := ![0, 0, 0, 0, 0, 1, -1, 1, -1, -1, 1, 1, -1, -1, 1]

/-- Modelled from the spec: (§3 LatticeDirectionSet) `INVERSEDIRECTIONS[d]`
is the direction whose vector is the negation of direction `d`; the defining
translation unit is not under `src/`. -/
def INVERSEDIRECTIONS : Fin 15 → Fin 15 :=
  ![0, 2, 1, 4, 3, 6, 5, 8, 7, 10, 9, 12, 11, 14, 13]

/-- Modelled from the spec: the standard D3Q15 lattice weights of the
second-order equilibrium expansion (rest 2/9, faces 1/9, corners 1/72). -/
def W : Fin 15 → ℚ :=
  ![2/9, 1/9, 1/9, 1/9, 1/9, 1/9, 1/9, 1/72, 1/72, 1/72, 1/72, 1/72, 1/72, 1/72, 1/72]

/-- Modelled from the spec: (§4.1) `D3Q15::CalculateFeq` — the equilibrium
distribution from a density and a velocity vector by the standard
second-order lattice-Boltzmann expansion (sound speed squared 1/3); its body
is not under `src/`. -/
def CalculateFeq (density vx vy vz : ℚ) : Fin 15 → ℚ := fun i =>
  W i * density *
    (1 + 3 * (CX i * vx + CY i * vy + CZ i * vz)
       + (9/2) * (CX i * vx + CY i * vy + CZ i * vz) ^ 2
       - (3/2) * (vx ^ 2 + vy ^ 2 + vz ^ 2))

/-- Result record of `D3Q15::CalculateDensityVelocityFEq`: the out-parameters
`density`, `v_x`, `v_y`, `v_z` and the equilibrium vector. -/
structure Moments where
  density : ℚ
  vx : ℚ
  vy : ℚ
  vz : ℚ
  fEq : Fin 15 → ℚ

/-- Modelled from the spec: (§4.1 Moment & Equilibrium Calculator)
`D3Q15::CalculateDensityVelocityFEq` — density is the sum of all entries,
velocity the distribution-weighted sum of direction vectors divided by the
density, and the equilibrium vector the second-order expansion at that
density and velocity.  Its body is not under `src/` (only declarations and
callers are). -/
def CalculateDensityVelocityFEq (f : Fin 15 → ℚ) : Moments :=
  let density := ∑ i, f i
  let vx := (∑ i, f i * CX i) / density
  let vy := (∑ i, f i * CY i) / density
  let vz := (∑ i, f i * CZ i) / density
  { density := density, vx := vx, vy := vy, vz := vz
    fEq := CalculateFeq density vx vy vz }

end D3Q15

namespace HemeLB

/-- The inputs of `ImplGuoZhengShi::DoCollisionsInternal` that are read during
a pass (all reads go to `FOld` and to the static geometry; `FNew` is only
written, so it is threaded separately through the step functions below).
`streamed` decomposes `LocalLatticeData::GetStreamedIndex` — the C++ flat
index `site * NUMVECTORS + direction` — into its (site, direction) pair;
`hasBoundary` is `LocalLatticeData::HasBoundary` and `cutDistance` is
`LocalLatticeData::GetCutDistance` (the wall fraction δ). -/
structure LatticeState where
  FOld : ℕ → Fin 15 → ℚ
  streamed : ℕ → Fin 15 → Slot
  hasBoundary : ℕ → Fin 15 → Bool
  cutDistance : ℕ → Fin 15 → ℚ

end HemeLB

namespace HemeLB.ImplGuoZhengShi

/-- The post-collision value of line 54 of `ImplGuoZhengShi.cc`:
`f[ii] + Omega * (f_neq[ii] = f[ii] - lFEq[ii])`. -/
def postCollision (omega : ℚ) (f : Fin 15 → ℚ) (d : Fin 15) : ℚ :=
  f d + omega * (f d - (D3Q15.CalculateDensityVelocityFEq f).fEq d)

/-- The stores of the bulk collision-and-streaming loop (lines 51–55), in
loop order `ii = 0, …, 14`: each post-collision value goes to the slot
`GetStreamedIndex(lIndex, ii)` of `FNew`. -/
def bulkWrites (omega : ℚ) (lat : LatticeState) (s : ℕ) : List FWrite :=
  (List.finRange 15).map fun d => (lat.streamed s d, postCollision omega (lat.FOld s) d)

/-- Lines 69–71: the near-wall velocity estimate `uWall` before any
interpolation, componentwise `(1 - 1/delta) * v_a` at the site's own
moments. -/
def uWallPre (lat : LatticeState) (s : ℕ) (l : Fin 15) : Fin 3 → ℚ :=
  let m := D3Q15.CalculateDensityVelocityFEq (lat.FOld s)
  let delta := lat.cutDistance s l
  ![(1 - 1 / delta) * m.vx, (1 - 1 / delta) * m.vy, (1 - 1 / delta) * m.vz]

/-- Line 72: the non-equilibrium part in the away-from-wall direction,
`f_neq[lAwayFromWallIndex]`, before any interpolation. -/
def fNeqPre (lat : LatticeState) (s : ℕ) (l : Fin 15) : ℚ :=
  let m := D3Q15.CalculateDensityVelocityFEq (lat.FOld s)
  let away := D3Q15.INVERSEDIRECTIONS l
  lat.FOld s away - m.fEq away

/-- The moments of the next fluid node away from the wall (lines 82–94):
the site part of `GetStreamedIndex(lIndex, lAwayFromWallIndex) / NUMVECTORS`. -/
def nextNodeMoments (lat : LatticeState) (s : ℕ) (l : Fin 15) : D3Q15.Moments :=
  D3Q15.CalculateDensityVelocityFEq
    (lat.FOld (lat.streamed s (D3Q15.INVERSEDIRECTIONS l)).1)

/-- The velocity components `nextNodeV` of the next fluid node away from the
wall (lines 85–94). -/
def nextNodeV (lat : LatticeState) (s : ℕ) (l : Fin 15) : Fin 3 → ℚ :=
  ![(nextNodeMoments lat s l).vx, (nextNodeMoments lat s l).vy,
    (nextNodeMoments lat s l).vz]

/-- The wall velocity after the δ < 0.75 treatment (lines 74–113): blended
with the next node out when that node is available, zeroed when it is not,
and left as the near-wall estimate when δ ≥ 0.75. -/
def uWall (lat : LatticeState) (s : ℕ) (l : Fin 15) : Fin 3 → ℚ :=
  let delta := lat.cutDistance s l
  let away := D3Q15.INVERSEDIRECTIONS l
  if delta < 3/4 then
    if lat.hasBoundary s away = false then
      fun a => delta * uWallPre lat s l a
        + (1 - delta) * (delta - 1) * nextNodeV lat s l a / (1 + delta)
    else
      fun _ => 0
  else
    uWallPre lat s l

/-- The non-equilibrium part after the δ < 0.75 treatment (lines 74–113). -/
def fNeq (lat : LatticeState) (s : ℕ) (l : Fin 15) : ℚ :=
  let delta := lat.cutDistance s l
  let away := D3Q15.INVERSEDIRECTIONS l
  if delta < 3/4 then
    if lat.hasBoundary s away = false then
      let m := nextNodeMoments lat s l
      delta * fNeqPre lat s l
        + (1 - delta) * (lat.FOld (lat.streamed s away).1 away - m.fEq away)
    else
      0
  else
    fNeqPre lat s l

/-- The boundary value of lines 115–124: the equilibrium at the site's own
density and the reconstructed wall velocity, plus `(1 + Omega) * fNeq`. -/
def boundaryValue (omega : ℚ) (lat : LatticeState) (s : ℕ) (l : Fin 15) : ℚ :=
  let m := D3Q15.CalculateDensityVelocityFEq (lat.FOld s)
  let u := uWall lat s l
  D3Q15.CalculateFeq m.density (u 0) (u 1) (u 2) (D3Q15.INVERSEDIRECTIONS l)
    + (1 + omega) * fNeq lat s l

/-- The stores of the boundary loop (lines 58–126), in loop order
`l = 1, …, 14`: for each wall-obstructed direction `l` the boundary value is
written into this site's own `FNew` slot at the inverse direction. -/
def boundaryWrites (omega : ℚ) (lat : LatticeState) (s : ℕ) : List FWrite :=
  ((List.finRange 15).drop 1).filterMap fun l =>
    if lat.hasBoundary s l = true then
      some ((s, D3Q15.INVERSEDIRECTIONS l), boundaryValue omega lat s l)
    else
      none

/-- All stores performed for one site of the outer loop of
`DoCollisionsInternal`: first the bulk collision-streaming stores, then the
boundary-treatment stores. -/
def siteWrites (omega : ℚ) (lat : LatticeState) (s : ℕ) : List FWrite :=
  bulkWrites omega lat s ++ boundaryWrites omega lat s

/-- The function `ImplGuoZhengShi::DoCollisionsInternal`: the outer loop over
sites `iFirstIndex, …, iFirstIndex + iSiteCount - 1`, applied to the `FNew`
buffer.  (`UpdateMinsAndMaxes` only accumulates extrema and touches neither
buffer, so it does not appear in the buffer semantics.) -/
def DoCollisionsInternal (omega : ℚ) (firstIndex siteCount : ℕ)
    (lat : LatticeState) (FNew : Slot → ℚ) : Slot → ℚ :=
  match siteCount with
  | 0 => FNew
  | c + 1 =>
      DoCollisionsInternal omega (firstIndex + 1) c lat
        (applyWrites FNew (siteWrites omega lat firstIndex))

/-- The site indices visited by the outer loop, in visit order. -/
def rangeSites (firstIndex siteCount : ℕ) : List ℕ :=
  match siteCount with
  | 0 => []
  | c + 1 => firstIndex :: rangeSites (firstIndex + 1) c

/-- Concrete lattice for witnesses: every site carries the unit-test fixture
distribution `(d+1)/10`, streams to the next site at the same direction, and
has no obstructed direction. -/
def latBulk : LatticeState where
  FOld := fun _ d => ((d : ℕ) + 1 : ℚ) / 10
  streamed := fun s d => (s + 1, d)
  hasBoundary := fun _ _ => false
  cutDistance := fun _ _ => 1/2

/-- Concrete lattice for witnesses: site 0 carries the fixture distribution
and is obstructed in direction 1 with δ = 1/2; all other sites are at the
rest equilibrium of density 1; streaming goes to site 1. -/
def latNearWall : LatticeState where
  FOld := fun s d => if s = 0 then ((d : ℕ) + 1 : ℚ) / 10 else D3Q15.W d
  streamed := fun _ d => (1, d)
  hasBoundary := fun s d => decide (s = 0 ∧ d = 1)
  cutDistance := fun _ _ => 1/2

/-- Concrete lattice for witnesses: as `latNearWall`, but site 0 is also
obstructed in direction 2, the direction away from the wall for `l = 1`. -/
def latNearWallBlocked : LatticeState where
  FOld := fun s d => if s = 0 then ((d : ℕ) + 1 : ℚ) / 10 else D3Q15.W d
  streamed := fun _ d => (1, d)
  hasBoundary := fun s d => decide (s = 0 ∧ (d = 1 ∨ d = 2))
  cutDistance := fun _ _ => 1/2

/-- Single-site closed lattice for the C6 witness: each direction streams
back to site 0 at the same direction (the one-site periodic lattice). -/
def latClosed : LatticeState where
  FOld := fun _ d => ((d : ℕ) + 1 : ℚ) / 10
  streamed := fun _ d => (0, d)
  hasBoundary := fun _ _ => false
  cutDistance := fun _ _ => 1/2

/-- The rest-equilibrium distribution of density 1 perturbed by +1/10 in
directions 1 and 2 (so `19/90` there): a perturbation with zero first
moment. -/
def fPerturbed : Fin 15 → ℚ :=
  ![2/9, 19/90, 19/90, 1/9, 1/9, 1/9, 1/9, 1/72, 1/72, 1/72, 1/72, 1/72, 1/72,
    1/72, 1/72]

/-- Counterexample lattice for C7: site 0 is obstructed in direction 1 with
δ = 1/2 and carries `fPerturbed`, so its velocity is zero while its
non-equilibrium part in direction 2 is not; site 1 (the next node away from
the wall) is exactly at rest equilibrium, so its velocity is zero too. -/
def latPerturbed : LatticeState where
  FOld := fun s => if s = 0 then fPerturbed else D3Q15.W
  streamed := fun _ d => (1, d)
  hasBoundary := fun s d => decide (s = 0 ∧ d = 1)
  cutDistance := fun _ _ => 1/2

/-- Lattice for the C7 witness: every site exactly at the rest equilibrium
of density 1, site 0 obstructed in direction 1 with δ = 1/2. -/
def latRest : LatticeState where
  FOld := fun _ => D3Q15.W
  streamed := fun _ d => (1, d)
  hasBoundary := fun s d => decide (s = 0 ∧ d = 1)
  cutDistance := fun _ _ => 1/2

end HemeLB.ImplGuoZhengShi

namespace HemeLB.vis

/-- The two coordinate words of `vis::ColPixel` (`src/Code/vis/ColPixel.h`):
`unsigned int mI` carries the i-coordinate with the glyph flag in its most
significant bit, `unsigned int mJ` the j-coordinate with the streakline
flag.  The 32-bit words are embedded as `ℕ`; the embedded operations are
pure bitwise operations, so no overflow reduction is involved. -/
structure ColPixelWords where
  mI : ℕ
  mJ : ℕ

/-- The constant `ColPixel::mMostSignificantBit = 1 << 31`. -/
def mMostSignificantBit : ℕ := 2 ^ 31

/-- The 32-bit complement `~mMostSignificantBit` = `0x7FFFFFFF`. -/
def notMostSignificantBit : ℕ := 2 ^ 31 - 1

/-- The setter `ColPixel::SetI`: `mI = iI | (mI & mMostSignificantBit)`. -/
def SetI (p : ColPixelWords) (iI : ℕ) : ColPixelWords :=
  { p with mI := iI ||| (p.mI &&& mMostSignificantBit) }

/-- The setter `ColPixel::SetJ`: `mJ = iJ | (mJ & mMostSignificantBit)`. -/
def SetJ (p : ColPixelWords) (iJ : ℕ) : ColPixelWords :=
  { p with mJ := iJ ||| (p.mJ &&& mMostSignificantBit) }

/-- The getter `ColPixel::GetI`: `mI & ~mMostSignificantBit`. -/
def GetI (p : ColPixelWords) : ℕ := p.mI &&& notMostSignificantBit

/-- The getter `ColPixel::GetJ`: `mJ & ~mMostSignificantBit`. -/
def GetJ (p : ColPixelWords) : ℕ := p.mJ &&& notMostSignificantBit

/-- The setter `ColPixel::SetGlyph`: set or clear the most significant bit
of `mI`. -/
def SetGlyph (p : ColPixelWords) (isGlyph : Bool) : ColPixelWords :=
  if isGlyph then { p with mI := p.mI ||| mMostSignificantBit }
  else { p with mI := p.mI &&& notMostSignificantBit }

/-- The predicate `ColPixel::IsGlyph`: `mI & mMostSignificantBit`, as a
truth value. -/
def IsGlyph (p : ColPixelWords) : Bool := p.mI &&& mMostSignificantBit != 0

/-- The setter `ColPixel::SetStreakline`: set or clear the most significant
bit of `mJ`. -/
def SetStreakline (p : ColPixelWords) (isStreakline : Bool) : ColPixelWords :=
  if isStreakline then { p with mJ := p.mJ ||| mMostSignificantBit }
  else { p with mJ := p.mJ &&& notMostSignificantBit }

/-- The predicate `ColPixel::IsStreakline`: `mJ & mMostSignificantBit`, as a
truth value. -/
def IsStreakline (p : ColPixelWords) : Bool := p.mJ &&& mMostSignificantBit != 0

end HemeLB.vis

namespace HemeLB.colloids

/-- The enumeration `geometry::SiteType` as used by `BoundaryConditions.cc`
(solid, fluid, inlet, outlet). -/
inductive SiteType where
  | solid
  | fluid
  | inlet
  | outlet
deriving DecidableEq

/-- The data of `colloids::Particle` read by
`BoundaryConditions::DoSomeThingsToParticle`: the global position (exact
rationals in place of C++ doubles; the id and owner rank are only printed). -/
structure Particle where
  globalPosition : ℚ × ℚ × ℚ
deriving DecidableEq

/-- The lattice-data queries of `DoSomeThingsToParticle`:
`GetContiguousSiteId` (`some localContiguousId` when the coordinates name
a local fluid site, `none` otherwise), and the per-site `IsEdge`, site type
and wall-distance accessors. `wallDistances dir` is the C++
`siteWallDistances[direction - 1]` for the face directions 1–6. -/
structure LatticeDataModel where
  contiguousSiteId : ℤ × ℤ × ℤ → Option ℕ
  isEdge : ℕ → Bool
  siteType : ℕ → SiteType
  wallDistances : ℕ → Fin 6 → ℚ

/-- An abstract `colloids::BoundaryCondition`: `DoSomethingToParticle` reads
the particle and the particle-to-wall data, may replace the particle, and
returns a keep flag.  (The concrete `LubricationBC`/`DeletionBC` classes are
not under `src/`.)  The C++ hands each condition a `LatticePosition` built
from the direction vector, the clamped wall distance and the particle
offset; being a pure function of those inputs, the vector construction is
absorbed into the abstract condition, which receives the (direction,
clamped distance) pairs. -/
abbrev BoundaryConditionFn : Type :=
  Particle → List (Fin 6 × ℚ) → Bool × Particle

/-- The C++ double-to-`site_t` cast truncates toward zero. -/
def castToSite (q : ℚ) : ℤ := if 0 ≤ q then ⌊q⌋ else ⌈q⌉

/-- Lines 76–79: the particle's global position taken to the nearest lattice
site, `(site_t)(0.5 + coordinate)` componentwise. -/
def roundedSitePosition (particle : Particle) : ℤ × ℤ × ℤ :=
  (castToSite (1/2 + particle.globalPosition.1),
   castToSite (1/2 + particle.globalPosition.2.1),
   castToSite (1/2 + particle.globalPosition.2.2))

/-- Lines 123–133, for one face direction: a negative distance means no wall
in this direction (the direction is skipped); otherwise the distance is
clamped to at most 0.5 and kept. -/
def processWallDistance (thisDistance : ℚ) : Option ℚ :=
  if thisDistance < 0 then none
  else some (if 1/2 < thisDistance then 1/2 else thisDistance)

/-- Lines 117–143: the per-direction particle-to-wall data collected for the
six face-of-a-cube directions, in direction order. -/
def particleToWallData (lat : LatticeDataModel) (siteId : ℕ) : List (Fin 6 × ℚ) :=
  (List.finRange 6).filterMap fun dir =>
    (processWallDistance (lat.wallDistances siteId dir)).map fun dist => (dir, dist)

/-- One of the three boundary-condition loops (lines 145–167): fold the
conditions over the particle, conjoining the keep flags. -/
def applyConditions (conditions : List BoundaryConditionFn)
    (wallData : List (Fin 6 × ℚ)) (st : Bool × Particle) : Bool × Particle :=
  conditions.foldl
    (fun st condition =>
      let r := condition st.2 wallData
      (st.1 && r.1, r.2))
    st

/-- The function `BoundaryConditions::DoSomeThingsToParticle` (lines 71–170):
returns the keep flag and the (possibly replaced) particle.  The `printf`
calls have no effect on either.  `conditionsWall`, `conditionsInlet`,
`conditionsOutlet` are the static `boundaryConditionsWall/Inlet/Outlet`
vectors. -/
def DoSomeThingsToParticle (conditionsWall conditionsInlet conditionsOutlet :
      List BoundaryConditionFn)
    (lat : LatticeDataModel) (particle : Particle) : Bool × Particle :=
  match lat.contiguousSiteId (roundedSitePosition particle) with
  | none => (false, particle)
  | some siteId =>
      let isNearWall := lat.isEdge siteId
      let isNearInlet := lat.siteType siteId = SiteType.inlet
      let isNearOutlet := lat.siteType siteId = SiteType.outlet
      if ¬isNearWall ∧ ¬isNearInlet ∧ ¬isNearOutlet then (true, particle)
      else
        let wallData := particleToWallData lat siteId
        let st₁ := if isNearWall then
            applyConditions conditionsWall wallData (true, particle)
          else (true, particle)
        let st₂ := if isNearInlet then
            applyConditions conditionsInlet wallData st₁
          else st₁
        if isNearOutlet then applyConditions conditionsOutlet wallData st₂
        else st₂

/-- Lattice for the C10 witness where no position is a local fluid site. -/
def latNoFluid : LatticeDataModel where
  contiguousSiteId := fun _ => none
  isEdge := fun _ => false
  siteType := fun _ => SiteType.fluid
  wallDistances := fun _ _ => 0

/-- Lattice for the C10 witness where every position is site 0, a plain
fluid site away from every boundary. -/
def latPlainFluid : LatticeDataModel where
  contiguousSiteId := fun _ => some 0
  isEdge := fun _ => false
  siteType := fun _ => SiteType.fluid
  wallDistances := fun _ _ => 0

end HemeLB.colloids

/-! ## Supporting lemmas -/

namespace HemeLB

theorem applyWrites_nil (F : Slot → ℚ) : applyWrites F [] = F := rfl

theorem applyWrites_cons (F : Slot → ℚ) (w : FWrite) (ws : List FWrite) :
    applyWrites F (w :: ws) = applyWrites (writeAt F w.1 w.2) ws := rfl

theorem applyWrites_append (F : Slot → ℚ) (l₁ l₂ : List FWrite) :
    applyWrites F (l₁ ++ l₂) = applyWrites (applyWrites F l₁) l₂ :=
  List.foldl_append _ _ _ _

/-- A slot no store targets keeps its previous contents. -/
theorem applyWrites_of_not_mem (F : Slot → ℚ) (ws : List FWrite) (k : Slot)
    (h : ∀ w ∈ ws, w.1 ≠ k) : applyWrites F ws k = F k := by
  induction ws generalizing F with
  | nil => rfl
  | cons w ws ih =>
      rw [applyWrites_cons, ih _ (fun u hu => h u (List.mem_cons_of_mem _ hu))]
      have hw : w.1 ≠ k := h w (List.mem_cons_self _ _)
      have hk : ¬(k = w.1) := fun h' => hw h'.symm
      simp [writeAt, hk]

/-- Reading back a store from a store list whose keys are produced injectively
from a duplicate-free index list. -/
theorem applyWrites_map_key {α : Type} [DecidableEq α] (F : Slot → ℚ)
    (l : List α) (keyf : α → Slot) (valf : α → ℚ) (a : α)
    (hnd : l.Nodup)
    (hinj : ∀ x ∈ l, ∀ y ∈ l, keyf x = keyf y → x = y)
    (ha : a ∈ l) :
    applyWrites F (l.map fun x => (keyf x, valf x)) (keyf a) = valf a := by
  induction l generalizing F with
  | nil => cases ha
  | cons x xs ih =>
      rw [List.map_cons, applyWrites_cons]
      rcases List.mem_cons.mp ha with rfl | hmem
      · have hxs : ∀ w ∈ xs.map fun y => (keyf y, valf y), w.1 ≠ keyf a := by
          intro w hw
          rcases List.mem_map.mp hw with ⟨y, hy, rfl⟩
          intro hk
          have : y = a := hinj y (List.mem_cons_of_mem _ hy) a ha hk
          exact (List.nodup_cons.mp hnd).1 (this ▸ hy)
        rw [applyWrites_of_not_mem _ _ _ hxs]
        simp [writeAt]
      · exact ih _ (List.nodup_cons.mp hnd).2
          (fun u hu v hv => hinj u (List.mem_cons_of_mem _ hu) v (List.mem_cons_of_mem _ hv))
          hmem

end HemeLB

namespace D3Q15

/-- The second-order equilibrium expansion sums to the density (the lattice
weights sum to 1, the weighted direction vectors to 0, and the weighted
second moments to (1/3)·identity). -/
theorem sum_CalculateFeq (density vx vy vz : ℚ) :
    ∑ i, CalculateFeq density vx vy vz i = density := by
  simp only [CalculateFeq, CX, CY, CZ, W, Fin.sum_univ_succ, Fin.isValue,
    Matrix.cons_val_zero, Matrix.cons_val_succ, Finset.univ_eq_empty,
    Finset.sum_empty, Fin.succ_zero_eq_one, Matrix.cons_val_one, Matrix.head_cons]
  ring

end D3Q15

namespace HemeLB.ImplGuoZhengShi

/-- Membership in the visited site list is the index interval. -/
theorem mem_rangeSites {firstIndex siteCount s : ℕ} :
    s ∈ rangeSites firstIndex siteCount ↔
      firstIndex ≤ s ∧ s < firstIndex + siteCount := by
  induction siteCount generalizing firstIndex with
  | zero => simp [rangeSites]
  | succ c ih =>
      simp only [rangeSites, List.mem_cons, ih]
      omega

/-- The outer loop is the sequential execution of each visited site's
stores, in visit order. -/
theorem DoCollisionsInternal_eq_applyWrites (omega : ℚ) (lat : LatticeState)
    (firstIndex siteCount : ℕ) (FNew : Slot → ℚ) :
    DoCollisionsInternal omega firstIndex siteCount lat FNew =
      applyWrites FNew
        ((rangeSites firstIndex siteCount).flatMap fun s => siteWrites omega lat s) := by
  induction siteCount generalizing firstIndex FNew with
  | zero => rfl
  | succ c ih =>
      rw [DoCollisionsInternal, ih, rangeSites, List.flatMap_cons, applyWrites_append]

/-- Distinct directions have distinct inverse directions. -/
theorem INVERSEDIRECTIONS_injective :
    ∀ a b : Fin 15, D3Q15.INVERSEDIRECTIONS a = D3Q15.INVERSEDIRECTIONS b → a = b := by
  decide

/-- After the full bulk loop of one site, the slot streamed to by direction
`d` holds that direction's post-collision value, provided the site's
streaming map sends distinct directions to distinct slots. -/
theorem bulk_slot (omega : ℚ) (lat : LatticeState) (s : ℕ) (F : Slot → ℚ)
    (d : Fin 15)
    (hinj : ∀ d₁ d₂ : Fin 15, lat.streamed s d₁ = lat.streamed s d₂ → d₁ = d₂) :
    applyWrites F (bulkWrites omega lat s) (lat.streamed s d) =
      postCollision omega (lat.FOld s) d := by
  exact applyWrites_map_key F (List.finRange 15) (lat.streamed s)
    (postCollision omega (lat.FOld s)) d (List.nodup_finRange 15)
    (fun x _ y _ h => hinj x y h) (List.mem_finRange d)

/-- After the boundary loop restricted to any duplicate-free direction list,
the slot at the inverse of an obstructed direction `l` of the list holds
that direction's boundary value. -/
theorem boundary_filterMap_slot (omega : ℚ) (lat : LatticeState) (s : ℕ)
    (F : Slot → ℚ) (l : Fin 15) (L : List (Fin 15))
    (hnd : L.Nodup) (hl : l ∈ L) (hb : lat.hasBoundary s l = true) :
    applyWrites F
        (L.filterMap fun x =>
          if lat.hasBoundary s x = true then
            some ((s, D3Q15.INVERSEDIRECTIONS x), boundaryValue omega lat s x)
          else none)
        (s, D3Q15.INVERSEDIRECTIONS l) =
      boundaryValue omega lat s l := by
  induction L generalizing F with
  | nil => cases hl
  | cons x xs ih =>
      rcases List.mem_cons.mp hl with rfl | hmem
      · rw [List.filterMap_cons, if_pos hb, applyWrites_cons]
        have hxs : ∀ w ∈ xs.filterMap fun y =>
            if lat.hasBoundary s y = true then
              some ((s, D3Q15.INVERSEDIRECTIONS y), boundaryValue omega lat s y)
            else none,
            w.1 ≠ (s, D3Q15.INVERSEDIRECTIONS l) := by
          intro w hw
          rcases List.mem_filterMap.mp hw with ⟨y, hy, hgy⟩
          by_cases hby : lat.hasBoundary s y = true
          · rw [if_pos hby, Option.some_inj] at hgy
            subst hgy
            intro hk
            have hyl : y = l :=
              INVERSEDIRECTIONS_injective _ _ (congrArg Prod.snd hk)
            exact (List.nodup_cons.mp hnd).1 (hyl ▸ hy)
          · rw [if_neg hby] at hgy
            cases hgy
        rw [applyWrites_of_not_mem _ _ _ hxs]
        simp [writeAt]
      · rw [List.filterMap_cons]
        by_cases hbx : lat.hasBoundary s x = true
        · rw [if_pos hbx, applyWrites_cons]
          exact ih _ (List.nodup_cons.mp hnd).2 hmem
        · rw [if_neg hbx]
          exact ih _ (List.nodup_cons.mp hnd).2 hmem

/-- After one full site of the outer loop (bulk stores, then boundary
stores), the site's own `FNew` slot at the inverse of an obstructed
direction `l ≠ 0` holds the boundary value for `l`. -/
theorem siteWrites_boundary_slot (omega : ℚ) (lat : LatticeState) (s : ℕ)
    (F : Slot → ℚ) (l : Fin 15)
    (hb : lat.hasBoundary s l = true) (h0 : l ≠ 0) :
    applyWrites F (siteWrites omega lat s) (s, D3Q15.INVERSEDIRECTIONS l) =
      boundaryValue omega lat s l := by
  rw [siteWrites, applyWrites_append]
  have hdrop : ∀ x : Fin 15, x ≠ 0 → x ∈ (List.finRange 15).drop 1 := by decide
  have hmem : l ∈ (List.finRange 15).drop 1 := hdrop l h0
  have hnd : ((List.finRange 15).drop 1).Nodup := by decide
  exact boundary_filterMap_slot omega lat s _ l _ hnd hmem hb

/-- Collision does not change a site's total mass: the fifteen
post-collision values of one site sum to the fifteen incoming values. -/
theorem sum_postCollision (omega : ℚ) (f : Fin 15 → ℚ) :
    ∑ d, postCollision omega f d = ∑ d, f d := by
  have hEq : ∑ d, (D3Q15.CalculateDensityVelocityFEq f).fEq d = ∑ d, f d := by
    simp only [D3Q15.CalculateDensityVelocityFEq]
    exact D3Q15.sum_CalculateFeq _ _ _ _
  calc ∑ d, postCollision omega f d
      = ∑ d, f d + omega * (∑ d, f d - ∑ d, (D3Q15.CalculateDensityVelocityFEq f).fEq d) := by
        simp only [postCollision, Finset.sum_add_distrib, ← Finset.mul_sum,
          Finset.sum_sub_distrib]
    _ = ∑ d, f d := by rw [hEq]; ring

/-- With no obstructed direction at a site, the boundary loop performs no
store and the site's stores are exactly the bulk stores. -/
theorem siteWrites_of_no_boundary (omega : ℚ) (lat : LatticeState) (s : ℕ)
    (hnb : ∀ l : Fin 15, lat.hasBoundary s l = false) :
    siteWrites omega lat s = bulkWrites omega lat s := by
  have hempty : boundaryWrites omega lat s = [] := by
    rw [boundaryWrites]
    rw [List.filterMap_eq_nil_iff]
    intro l _
    rw [hnb l]
    simp
  rw [siteWrites, hempty, List.append_nil]

/-- Pointwise equal store-list producers give the same concatenation. -/
theorem flatMap_congr {α β : Type} (l : List α) (f g : α → List β)
    (h : ∀ x ∈ l, f x = g x) : l.flatMap f = l.flatMap g := by
  induction l with
  | nil => rfl
  | cons x xs ih =>
      rw [List.flatMap_cons, List.flatMap_cons, h x (List.mem_cons_self _ _),
        ih (fun y hy => h y (List.mem_cons_of_mem _ hy))]

/-- The visited site list has no duplicates. -/
theorem rangeSites_nodup (firstIndex siteCount : ℕ) :
    (rangeSites firstIndex siteCount).Nodup := by
  induction siteCount generalizing firstIndex with
  | zero => exact List.nodup_nil
  | succ c ih =>
      rw [rangeSites, List.nodup_cons]
      refine ⟨fun hmem => ?_, ih _⟩
      have := mem_rangeSites.mp hmem
      omega

/-- After the bulk stores of a duplicate-free collection of sites whose
global streaming map is injective, the slot streamed to by direction `d`
of a visited site `s` holds that site's post-collision value for `d`. -/
theorem flatMap_bulk_slot (omega : ℚ) (lat : LatticeState) (N : ℕ)
    (sites : List ℕ) (F : Slot → ℚ) (s : ℕ) (d : Fin 15)
    (hsub : ∀ t ∈ sites, t < N) (hnd : sites.Nodup) (hs : s ∈ sites)
    (hinj : ∀ s₁, s₁ < N → ∀ s₂, s₂ < N → ∀ d₁ d₂ : Fin 15,
      lat.streamed s₁ d₁ = lat.streamed s₂ d₂ → s₁ = s₂ ∧ d₁ = d₂) :
    applyWrites F (sites.flatMap fun t => bulkWrites omega lat t)
        (lat.streamed s d) =
      postCollision omega (lat.FOld s) d := by
  induction sites generalizing F with
  | nil => cases hs
  | cons t ts ih =>
      rw [List.flatMap_cons, applyWrites_append]
      rcases List.mem_cons.mp hs with rfl | hmem
      · have hts : ∀ w ∈ ts.flatMap fun u => bulkWrites omega lat u,
            w.1 ≠ lat.streamed s d := by
          intro w hw
          rcases List.mem_flatMap.mp hw with ⟨u, hu, hwu⟩
          rcases List.mem_map.mp hwu with ⟨d', _, rfl⟩
          intro hk
          have hus : u = s ∧ d' = d :=
            hinj u (hsub u (List.mem_cons_of_mem _ hu)) s
              (hsub s (List.mem_cons_self _ _)) d' d hk
          exact (List.nodup_cons.mp hnd).1 (hus.1 ▸ hu)
        rw [applyWrites_of_not_mem _ _ _ hts]
        exact bulk_slot omega lat s F d
          (fun d₁ d₂ h =>
            (hinj s (hsub s (List.mem_cons_self _ _)) s
              (hsub s (List.mem_cons_self _ _)) d₁ d₂ h).2)
      · exact ih _ (fun u hu => hsub u (List.mem_cons_of_mem _ hu))
          (List.nodup_cons.mp hnd).2 hmem

end HemeLB.ImplGuoZhengShi

namespace HemeLB.vis

/-- Bit identity behind `GetI ∘ SetI`: for a coordinate below 2³¹, oring in
a masked high bit and masking it back off returns the coordinate. -/
theorem lor_land_msb_mask (i m : ℕ) (hi : i < 2 ^ 31) :
    (i ||| (m &&& 2 ^ 31)) &&& (2 ^ 31 - 1) = i := by
  apply Nat.eq_of_testBit_eq
  intro j
  simp only [Nat.testBit_land, Nat.testBit_lor, Nat.testBit_two_pow,
    Nat.testBit_two_pow_sub_one]
  rcases lt_or_ge j 31 with hj | hj
  · have h31 : ¬(31 = j) := by omega
    simp [hj, h31]
  · have hij : i.testBit j = false := by
      have : i < 2 ^ j := lt_of_lt_of_le hi (Nat.pow_le_pow_right (by norm_num) hj)
      exact Nat.testBit_lt_two_pow this
    have hj' : ¬(j < 31) := by omega
    simp [hij, hj']

/-- Bit identity behind `GetI ∘ SetGlyph true`: setting the high bit does
not change the low 31 bits. -/
theorem lor_msb_mask (m : ℕ) :
    (m ||| 2 ^ 31) &&& (2 ^ 31 - 1) = m &&& (2 ^ 31 - 1) := by
  apply Nat.eq_of_testBit_eq
  intro j
  simp only [Nat.testBit_land, Nat.testBit_lor, Nat.testBit_two_pow,
    Nat.testBit_two_pow_sub_one]
  rcases lt_or_ge j 31 with hj | hj
  · have h31 : ¬(31 = j) := by omega
    simp [hj, h31]
  · have hj' : ¬(j < 31) := by omega
    simp [hj']

/-- Bit identity behind `GetI ∘ SetGlyph false`: the low mask is
idempotent. -/
theorem land_mask_mask (m : ℕ) :
    (m &&& (2 ^ 31 - 1)) &&& (2 ^ 31 - 1) = m &&& (2 ^ 31 - 1) := by
  apply Nat.eq_of_testBit_eq
  intro j
  simp only [Nat.testBit_land]
  cases m.testBit j <;> cases (2 ^ 31 - 1).testBit j <;> rfl

/-- Bit identity behind `IsGlyph ∘ SetGlyph true`: after oring in the high
bit, reading it gives the bit itself. -/
theorem lor_msb_land_msb (m : ℕ) : (m ||| 2 ^ 31) &&& 2 ^ 31 = 2 ^ 31 := by
  apply Nat.eq_of_testBit_eq
  intro j
  simp only [Nat.testBit_land, Nat.testBit_lor, Nat.testBit_two_pow]
  by_cases hj : 31 = j <;> simp [hj]

/-- Bit identity behind `IsGlyph ∘ SetGlyph false`: after clearing the high
bit, reading it gives zero. -/
theorem land_mask_land_msb (m : ℕ) : (m &&& (2 ^ 31 - 1)) &&& 2 ^ 31 = 0 := by
  apply Nat.eq_of_testBit_eq
  intro j
  simp only [Nat.testBit_land, Nat.testBit_two_pow,
    Nat.testBit_two_pow_sub_one, Nat.zero_testBit]
  by_cases hj : 31 = j
  · subst hj
    simp
  · simp [hj]

end HemeLB.vis

/-! ## The claims -/

namespace HemeLB.ImplGuoZhengShi

/-- C1: for every site processed by the bulk collision-streaming loop and
every direction `d`, including the rest direction 0, the value the loop
leaves in the streamed-to slot of the next buffer is
`current[d] + ω·(current[d] − f_eq[d])`, with `f_eq` the second-order
equilibrium computed from the site's current distribution vector and `ω`
the relaxation parameter (the site's streaming map being slot-injective). -/
theorem claim1_bulk_post_collision (omega : ℚ) (lat : LatticeState) (s : ℕ)
    (F : Slot → ℚ) (d : Fin 15)
    (hinj : ∀ d₁ d₂ : Fin 15, lat.streamed s d₁ = lat.streamed s d₂ → d₁ = d₂) :
    applyWrites F (bulkWrites omega lat s) (lat.streamed s d) =
      lat.FOld s d + omega *
        (lat.FOld s d - (D3Q15.CalculateDensityVelocityFEq (lat.FOld s)).fEq d) :=
  bulk_slot omega lat s F d hinj

/-- C1 witness: the bulk write equation at a concrete lattice, site 0, the
rest direction 0. -/
theorem claim1_bulk_post_collision_witness :
    applyWrites (fun _ => 0) (bulkWrites 1 latBulk 0) (latBulk.streamed 0 0) =
      latBulk.FOld 0 0 + 1 *
        (latBulk.FOld 0 0 -
          (D3Q15.CalculateDensityVelocityFEq (latBulk.FOld 0)).fEq 0) :=
  claim1_bulk_post_collision 1 latBulk 0 (fun _ => 0) 0
    (by intro d₁ d₂ h; simpa [latBulk] using h)

/-- C2: for a site with wall-obstructed direction `l` (`l ≠ 0`), after the
full per-site treatment (bulk loop then boundary loop) the site's own next
buffer at the inverse direction holds
`fEq[inverse l] + (1 + ω)·fNeq`, where `fEq` is the equilibrium at the
site's own density together with the reconstructed wall velocity, and
`fNeq` is the (possibly interpolated) non-equilibrium part. -/
theorem claim2_boundary_value (omega : ℚ) (lat : LatticeState) (s : ℕ)
    (F : Slot → ℚ) (l : Fin 15)
    (hb : lat.hasBoundary s l = true) (h0 : l ≠ 0) :
    applyWrites F (siteWrites omega lat s) (s, D3Q15.INVERSEDIRECTIONS l) =
      D3Q15.CalculateFeq (D3Q15.CalculateDensityVelocityFEq (lat.FOld s)).density
        (uWall lat s l 0) (uWall lat s l 1) (uWall lat s l 2)
        (D3Q15.INVERSEDIRECTIONS l)
      + (1 + omega) * fNeq lat s l :=
  siteWrites_boundary_slot omega lat s F l hb h0

/-- C2 witness: the boundary value equation at a concrete near-wall lattice,
site 0, obstructed direction 1. -/
theorem claim2_boundary_value_witness :
    latNearWall.hasBoundary 0 1 = true ∧
    applyWrites (fun _ => 0) (siteWrites 1 latNearWall 0)
        (0, D3Q15.INVERSEDIRECTIONS 1) =
      D3Q15.CalculateFeq
        (D3Q15.CalculateDensityVelocityFEq (latNearWall.FOld 0)).density
        (uWall latNearWall 0 1 0) (uWall latNearWall 0 1 1)
        (uWall latNearWall 0 1 2) (D3Q15.INVERSEDIRECTIONS 1)
      + (1 + 1) * fNeq latNearWall 0 1 :=
  ⟨by decide,
   claim2_boundary_value 1 latNearWall 0 (fun _ => 0) 1 (by decide) (by decide)⟩

/-- C3: the interpolation branch of the boundary treatment is entered
exactly under a strict δ < 0.75 comparison.  When δ < 0.75 and the site is
not itself obstructed away from the wall, the stored boundary value uses
the blended wall velocity `δ·uWall_a + (1−δ)(δ−1)/(1+δ)·farVelocity_a` and
the blended non-equilibrium part
`δ·fNeq + (1−δ)·(farCurrent[inverse l] − farEquilibrium[inverse l])`; when
δ ≥ 0.75 no interpolation is applied and the step-2/step-3 values are used
unchanged. -/
theorem claim3_interpolation_knee (omega : ℚ) (lat : LatticeState) (s : ℕ)
    (F : Slot → ℚ) (l : Fin 15)
    (hb : lat.hasBoundary s l = true) (h0 : l ≠ 0) :
    (lat.cutDistance s l < 3/4 →
      lat.hasBoundary s (D3Q15.INVERSEDIRECTIONS l) = false →
      applyWrites F (siteWrites omega lat s) (s, D3Q15.INVERSEDIRECTIONS l) =
        D3Q15.CalculateFeq
          (D3Q15.CalculateDensityVelocityFEq (lat.FOld s)).density
          (lat.cutDistance s l * uWallPre lat s l 0
            + (1 - lat.cutDistance s l) * (lat.cutDistance s l - 1)
              / (1 + lat.cutDistance s l) * nextNodeV lat s l 0)
          (lat.cutDistance s l * uWallPre lat s l 1
            + (1 - lat.cutDistance s l) * (lat.cutDistance s l - 1)
              / (1 + lat.cutDistance s l) * nextNodeV lat s l 1)
          (lat.cutDistance s l * uWallPre lat s l 2
            + (1 - lat.cutDistance s l) * (lat.cutDistance s l - 1)
              / (1 + lat.cutDistance s l) * nextNodeV lat s l 2)
          (D3Q15.INVERSEDIRECTIONS l)
        + (1 + omega) *
            (lat.cutDistance s l * fNeqPre lat s l
              + (1 - lat.cutDistance s l) *
                (lat.FOld (lat.streamed s (D3Q15.INVERSEDIRECTIONS l)).1
                    (D3Q15.INVERSEDIRECTIONS l)
                  - (nextNodeMoments lat s l).fEq (D3Q15.INVERSEDIRECTIONS l))))
    ∧ (3/4 ≤ lat.cutDistance s l →
      applyWrites F (siteWrites omega lat s) (s, D3Q15.INVERSEDIRECTIONS l) =
        D3Q15.CalculateFeq
          (D3Q15.CalculateDensityVelocityFEq (lat.FOld s)).density
          (uWallPre lat s l 0) (uWallPre lat s l 1) (uWallPre lat s l 2)
          (D3Q15.INVERSEDIRECTIONS l)
        + (1 + omega) * fNeqPre lat s l) := by
  constructor
  · intro hlt hfar
    rw [siteWrites_boundary_slot omega lat s F l hb h0]
    have hu : ∀ a : Fin 3, uWall lat s l a =
        lat.cutDistance s l * uWallPre lat s l a
          + (1 - lat.cutDistance s l) * (lat.cutDistance s l - 1)
            / (1 + lat.cutDistance s l) * nextNodeV lat s l a := by
      intro a
      simp only [uWall, if_pos hlt, if_pos hfar]
      ring
    have hf : fNeq lat s l =
        lat.cutDistance s l * fNeqPre lat s l
          + (1 - lat.cutDistance s l) *
            (lat.FOld (lat.streamed s (D3Q15.INVERSEDIRECTIONS l)).1
                (D3Q15.INVERSEDIRECTIONS l)
              - (nextNodeMoments lat s l).fEq (D3Q15.INVERSEDIRECTIONS l)) := by
      simp only [fNeq, if_pos hlt, if_pos hfar]
    rw [boundaryValue, hu 0, hu 1, hu 2, hf]
  · intro hge
    rw [siteWrites_boundary_slot omega lat s F l hb h0]
    have hnlt : ¬(lat.cutDistance s l < 3/4) := not_lt.mpr hge
    have hu : uWall lat s l = uWallPre lat s l := by
      simp only [uWall, if_neg hnlt]
    have hf : fNeq lat s l = fNeqPre lat s l := by
      simp only [fNeq, if_neg hnlt]
    rw [boundaryValue, hu, hf]

/-- C3 witness: the interpolating branch of the knee at δ = 1/2 on
`latNearWall` (away direction open). -/
theorem claim3_interpolation_knee_witness :
    latNearWall.cutDistance 0 1 < 3/4 ∧
    latNearWall.hasBoundary 0 (D3Q15.INVERSEDIRECTIONS 1) = false ∧
    applyWrites (fun _ => 0) (siteWrites 1 latNearWall 0)
        (0, D3Q15.INVERSEDIRECTIONS 1) =
      D3Q15.CalculateFeq
        (D3Q15.CalculateDensityVelocityFEq (latNearWall.FOld 0)).density
        (latNearWall.cutDistance 0 1 * uWallPre latNearWall 0 1 0
          + (1 - latNearWall.cutDistance 0 1) * (latNearWall.cutDistance 0 1 - 1)
            / (1 + latNearWall.cutDistance 0 1) * nextNodeV latNearWall 0 1 0)
        (latNearWall.cutDistance 0 1 * uWallPre latNearWall 0 1 1
          + (1 - latNearWall.cutDistance 0 1) * (latNearWall.cutDistance 0 1 - 1)
            / (1 + latNearWall.cutDistance 0 1) * nextNodeV latNearWall 0 1 1)
        (latNearWall.cutDistance 0 1 * uWallPre latNearWall 0 1 2
          + (1 - latNearWall.cutDistance 0 1) * (latNearWall.cutDistance 0 1 - 1)
            / (1 + latNearWall.cutDistance 0 1) * nextNodeV latNearWall 0 1 2)
        (D3Q15.INVERSEDIRECTIONS 1)
      + (1 + 1) *
          (latNearWall.cutDistance 0 1 * fNeqPre latNearWall 0 1
            + (1 - latNearWall.cutDistance 0 1) *
              (latNearWall.FOld
                  (latNearWall.streamed 0 (D3Q15.INVERSEDIRECTIONS 1)).1
                  (D3Q15.INVERSEDIRECTIONS 1)
                - (nextNodeMoments latNearWall 0 1).fEq
                    (D3Q15.INVERSEDIRECTIONS 1))) :=
  ⟨by norm_num [latNearWall], by decide,
   (claim3_interpolation_knee 1 latNearWall 0 (fun _ => 0) 1 (by decide)
      (by decide)).1 (by norm_num [latNearWall]) (by decide)⟩

/-- C4: when δ < 0.75 but the site is itself obstructed in the
away-from-wall direction, the treatment falls back to `uWall = 0` and
`fNeq = 0`, so the stored boundary value is exactly the equilibrium at the
local density with zero velocity. -/
theorem claim4_fallback_zero (omega : ℚ) (lat : LatticeState) (s : ℕ)
    (F : Slot → ℚ) (l : Fin 15)
    (hb : lat.hasBoundary s l = true) (h0 : l ≠ 0)
    (hlt : lat.cutDistance s l < 3/4)
    (hblocked : lat.hasBoundary s (D3Q15.INVERSEDIRECTIONS l) = true) :
    uWall lat s l = (fun _ => 0) ∧ fNeq lat s l = 0 ∧
    applyWrites F (siteWrites omega lat s) (s, D3Q15.INVERSEDIRECTIONS l) =
      D3Q15.CalculateFeq
        (D3Q15.CalculateDensityVelocityFEq (lat.FOld s)).density 0 0 0
        (D3Q15.INVERSEDIRECTIONS l) := by
  have hnfar : ¬(lat.hasBoundary s (D3Q15.INVERSEDIRECTIONS l) = false) := by
    rw [hblocked]; simp
  have hu : uWall lat s l = (fun _ => 0) := by
    simp only [uWall, if_pos hlt, if_neg hnfar]
  have hf : fNeq lat s l = 0 := by
    simp only [fNeq, if_pos hlt, if_neg hnfar]
  refine ⟨hu, hf, ?_⟩
  rw [siteWrites_boundary_slot omega lat s F l hb h0, boundaryValue, hu, hf]
  ring

/-- C4 witness: the zero fallback at a concrete lattice where site 0 is
obstructed both toward (direction 1) and away from (direction 2) the wall. -/
theorem claim4_fallback_zero_witness :
    latNearWallBlocked.cutDistance 0 1 < 3/4 ∧
    latNearWallBlocked.hasBoundary 0 (D3Q15.INVERSEDIRECTIONS 1) = true ∧
    (uWall latNearWallBlocked 0 1 = (fun _ => 0) ∧
     fNeq latNearWallBlocked 0 1 = 0 ∧
     applyWrites (fun _ => 0) (siteWrites 1 latNearWallBlocked 0)
         (0, D3Q15.INVERSEDIRECTIONS 1) =
       D3Q15.CalculateFeq
         (D3Q15.CalculateDensityVelocityFEq (latNearWallBlocked.FOld 0)).density
         0 0 0 (D3Q15.INVERSEDIRECTIONS 1)) :=
  ⟨by norm_num [latNearWallBlocked], by decide,
   claim4_fallback_zero 1 latNearWallBlocked 0 (fun _ => 0) 1 (by decide)
     (by decide) (by norm_num [latNearWallBlocked]) (by decide)⟩

end HemeLB.ImplGuoZhengShi

namespace D3Q15

/-- C5: the moment and equilibrium calculator, applied to any distribution
vector, returns a density equal to the sum of all entries and a velocity
vector equal to the distribution-weighted sum of the lattice direction
vectors divided by that density — the returned velocity is the normalised
first moment, not the raw momentum. -/
theorem claim5_moments (f : Fin 15 → ℚ) (hρ : ∑ i, f i ≠ 0) :
    (CalculateDensityVelocityFEq f).density = ∑ i, f i ∧
    (CalculateDensityVelocityFEq f).vx * (∑ i, f i) = ∑ i, f i * CX i ∧
    (CalculateDensityVelocityFEq f).vy * (∑ i, f i) = ∑ i, f i * CY i ∧
    (CalculateDensityVelocityFEq f).vz * (∑ i, f i) = ∑ i, f i * CZ i := by
  refine ⟨rfl, ?_, ?_, ?_⟩ <;>
    simp only [CalculateDensityVelocityFEq] <;>
    exact div_mul_cancel₀ _ hρ

/-- C5 witness: the moment identities at the unit-test fixture distribution
`(d+1)/10`, whose density is 12. -/
theorem claim5_moments_witness :
    (∑ i : Fin 15, ((i : ℕ) + 1 : ℚ) / 10 ≠ 0) ∧
    ((CalculateDensityVelocityFEq fun i => ((i : ℕ) + 1 : ℚ) / 10).density =
        ∑ i : Fin 15, ((i : ℕ) + 1 : ℚ) / 10 ∧
      (CalculateDensityVelocityFEq fun i => ((i : ℕ) + 1 : ℚ) / 10).vx *
          (∑ i : Fin 15, ((i : ℕ) + 1 : ℚ) / 10) =
        ∑ i : Fin 15, (((i : ℕ) + 1 : ℚ) / 10) * CX i ∧
      (CalculateDensityVelocityFEq fun i => ((i : ℕ) + 1 : ℚ) / 10).vy *
          (∑ i : Fin 15, ((i : ℕ) + 1 : ℚ) / 10) =
        ∑ i : Fin 15, (((i : ℕ) + 1 : ℚ) / 10) * CY i ∧
      (CalculateDensityVelocityFEq fun i => ((i : ℕ) + 1 : ℚ) / 10).vz *
          (∑ i : Fin 15, ((i : ℕ) + 1 : ℚ) / 10) =
        ∑ i : Fin 15, (((i : ℕ) + 1 : ℚ) / 10) * CZ i) :=
  ⟨by norm_num [Fin.sum_univ_succ],
   claim5_moments (fun i => ((i : ℕ) + 1 : ℚ) / 10)
     (by norm_num [Fin.sum_univ_succ])⟩

end D3Q15

namespace HemeLB.ImplGuoZhengShi

/-- C6: on a closed bulk lattice — every direction of every one of the `N`
sites streams to a site of the lattice, the streaming map is a bijection of
the `N × 15` slots, and no direction is wall-obstructed, so the boundary
treatment never runs — one collision-streaming pass conserves total mass:
the sum of the next buffer over all sites and directions equals the sum of
the current buffer. -/
theorem claim6_mass_conservation (omega : ℚ) (lat : LatticeState) (N : ℕ)
    (F : Slot → ℚ)
    (hnb : ∀ s, s < N → ∀ l : Fin 15, lat.hasBoundary s l = false)
    (hin : ∀ s, s < N → ∀ d : Fin 15, (lat.streamed s d).1 < N)
    (hinj : ∀ s₁, s₁ < N → ∀ s₂, s₂ < N → ∀ d₁ d₂ : Fin 15,
      lat.streamed s₁ d₁ = lat.streamed s₂ d₂ → s₁ = s₂ ∧ d₁ = d₂)
    (hsurj : ∀ t, t < N → ∀ e : Fin 15,
      ∃ s, s < N ∧ ∃ d, lat.streamed s d = (t, e)) :
    ∑ s ∈ Finset.range N, ∑ d,
        DoCollisionsInternal omega 0 N lat F (s, d) =
      ∑ s ∈ Finset.range N, ∑ d, lat.FOld s d := by
  have hchar : ∀ s, s < N → ∀ d : Fin 15,
      DoCollisionsInternal omega 0 N lat F (lat.streamed s d) =
        postCollision omega (lat.FOld s) d := by
    intro s hs d
    rw [DoCollisionsInternal_eq_applyWrites]
    rw [flatMap_congr (rangeSites 0 N) _ (fun t => bulkWrites omega lat t)
      (fun t ht => siteWrites_of_no_boundary omega lat t
        (hnb t (by have := mem_rangeSites.mp ht; omega)))]
    exact flatMap_bulk_slot omega lat N (rangeSites 0 N) F s d
      (fun t ht => by have := mem_rangeSites.mp ht; omega)
      (rangeSites_nodup 0 N)
      (mem_rangeSites.mpr (by omega))
      hinj
  rw [← Finset.sum_product]
  have hmemT : ∀ p : Slot,
      p ∈ Finset.range N ×ˢ (Finset.univ : Finset (Fin 15)) ↔ p.1 < N := by
    intro p
    simp [Finset.mem_product]
  have hbij := Finset.sum_nbij (s := Finset.range N ×ˢ Finset.univ)
    (t := Finset.range N ×ˢ Finset.univ)
    (f := fun p : Slot => postCollision omega (lat.FOld p.1) p.2)
    (g := fun p : Slot => DoCollisionsInternal omega 0 N lat F p)
    (fun p => lat.streamed p.1 p.2)
    (by
      intro p hp
      exact (hmemT _).mpr (hin p.1 ((hmemT p).mp hp) p.2))
    (by
      intro p hp q hq h
      have hp' : p.1 < N := (hmemT p).mp (Finset.mem_coe.mp hp)
      have hq' : q.1 < N := (hmemT q).mp (Finset.mem_coe.mp hq)
      have := hinj p.1 hp' q.1 hq' p.2 q.2 h
      exact Prod.ext this.1 this.2)
    (by
      intro t ht
      have ht' : t.1 < N := (hmemT t).mp (Finset.mem_coe.mp ht)
      obtain ⟨s, hs, d, hsd⟩ := hsurj t.1 ht' t.2
      exact ⟨(s, d), Finset.mem_coe.mpr ((hmemT _).mpr hs), by simpa using hsd⟩)
    (by
      intro p hp
      exact (hchar p.1 ((hmemT p).mp hp) p.2).symm)
  rw [← hbij, Finset.sum_product]
  exact Finset.sum_congr rfl fun s _ => sum_postCollision omega (lat.FOld s)

/-- C6 witness: mass conservation on the one-site periodic lattice. -/
theorem claim6_mass_conservation_witness :
    ∑ s ∈ Finset.range 1, ∑ d,
        DoCollisionsInternal 1 0 1 latClosed (fun _ => 0) (s, d) =
      ∑ s ∈ Finset.range 1, ∑ d, latClosed.FOld s d :=
  claim6_mass_conservation 1 latClosed 1 (fun _ => 0)
    (fun _ _ _ => rfl)
    (fun s hs d => by simp [latClosed])
    (fun s₁ h₁ s₂ h₂ d₁ d₂ h => by
      constructor
      · omega
      · simpa [latClosed] using h)
    (fun t ht e => by
      have ht0 : t = 0 := by omega
      subst ht0
      exact ⟨0, by omega, e, rfl⟩)

/-- C7 counterexample: on `latPerturbed` the near-wall site has δ = 1/2 in
the obstructed direction 1, zero local velocity and zero velocity at the
further-out site used for interpolation, yet the reconstructed boundary
value (at ω = 1) is not the plain equilibrium distribution at the local
density in direction `inverse 1`: the interpolated non-equilibrium part
does not vanish. -/
theorem claim7_counterexample :
    latPerturbed.hasBoundary 0 1 = true ∧
    latPerturbed.cutDistance 0 1 = 1/2 ∧
    (D3Q15.CalculateDensityVelocityFEq (latPerturbed.FOld 0)).vx = 0 ∧
    (D3Q15.CalculateDensityVelocityFEq (latPerturbed.FOld 0)).vy = 0 ∧
    (D3Q15.CalculateDensityVelocityFEq (latPerturbed.FOld 0)).vz = 0 ∧
    latPerturbed.hasBoundary 0 (D3Q15.INVERSEDIRECTIONS 1) = false ∧
    (nextNodeMoments latPerturbed 0 1).vx = 0 ∧
    (nextNodeMoments latPerturbed 0 1).vy = 0 ∧
    (nextNodeMoments latPerturbed 0 1).vz = 0 ∧
    applyWrites (fun _ => 0) (siteWrites 1 latPerturbed 0)
        (0, D3Q15.INVERSEDIRECTIONS 1) ≠
      D3Q15.CalculateFeq
        (D3Q15.CalculateDensityVelocityFEq (latPerturbed.FOld 0)).density
        0 0 0 (D3Q15.INVERSEDIRECTIONS 1) := by
  refine ⟨by decide, rfl, ?_, ?_, ?_, by decide, ?_, ?_, ?_, ?_⟩
  · norm_num [D3Q15.CalculateDensityVelocityFEq, latPerturbed, fPerturbed,
      D3Q15.CX, Fin.sum_univ_succ]
  · norm_num [D3Q15.CalculateDensityVelocityFEq, latPerturbed, fPerturbed,
      D3Q15.CY, Fin.sum_univ_succ]
  · norm_num [D3Q15.CalculateDensityVelocityFEq, latPerturbed, fPerturbed,
      D3Q15.CZ, Fin.sum_univ_succ]
  · norm_num [nextNodeMoments, D3Q15.CalculateDensityVelocityFEq, latPerturbed,
      D3Q15.W, D3Q15.CX, D3Q15.INVERSEDIRECTIONS, Fin.sum_univ_succ]
  · norm_num [nextNodeMoments, D3Q15.CalculateDensityVelocityFEq, latPerturbed,
      D3Q15.W, D3Q15.CY, D3Q15.INVERSEDIRECTIONS, Fin.sum_univ_succ]
  · norm_num [nextNodeMoments, D3Q15.CalculateDensityVelocityFEq, latPerturbed,
      D3Q15.W, D3Q15.CZ, D3Q15.INVERSEDIRECTIONS, Fin.sum_univ_succ]
  · rw [siteWrites_boundary_slot 1 latPerturbed 0 (fun _ => 0) 1 (by decide)
      (by decide)]
    norm_num [boundaryValue, uWall, fNeq, uWallPre, fNeqPre, nextNodeMoments,
      nextNodeV, D3Q15.CalculateDensityVelocityFEq, D3Q15.CalculateFeq,
      latPerturbed, fPerturbed, D3Q15.W, D3Q15.CX, D3Q15.CY, D3Q15.CZ,
      D3Q15.INVERSEDIRECTIONS, Fin.sum_univ_succ,
      show ((2 : Fin 15) = 1) ↔ False from by decide]

/-- C7 (amended): for a near-wall site with δ = 1/2 in an obstructed
direction `l`, zero local velocity and zero velocity at the further-out site
used for interpolation, the wall-velocity estimate is zero, and the stored
boundary value is the plain equilibrium at the local density plus
`(1 + ω)` times the mean of the local and far non-equilibrium parts in
direction `inverse l`; it is exactly the plain equilibrium when both those
non-equilibrium parts vanish. -/
theorem claim7_amended (omega : ℚ) (lat : LatticeState) (s : ℕ)
    (F : Slot → ℚ) (l : Fin 15)
    (hb : lat.hasBoundary s l = true) (h0 : l ≠ 0)
    (hd : lat.cutDistance s l = 1/2)
    (hvx : (D3Q15.CalculateDensityVelocityFEq (lat.FOld s)).vx = 0)
    (hvy : (D3Q15.CalculateDensityVelocityFEq (lat.FOld s)).vy = 0)
    (hvz : (D3Q15.CalculateDensityVelocityFEq (lat.FOld s)).vz = 0)
    (hfar : lat.hasBoundary s (D3Q15.INVERSEDIRECTIONS l) = false)
    (hfvx : (nextNodeMoments lat s l).vx = 0)
    (hfvy : (nextNodeMoments lat s l).vy = 0)
    (hfvz : (nextNodeMoments lat s l).vz = 0) :
    applyWrites F (siteWrites omega lat s) (s, D3Q15.INVERSEDIRECTIONS l) =
      D3Q15.CalculateFeq
        (D3Q15.CalculateDensityVelocityFEq (lat.FOld s)).density 0 0 0
        (D3Q15.INVERSEDIRECTIONS l)
      + (1 + omega) *
          (1/2 * fNeqPre lat s l +
            1/2 * (lat.FOld (lat.streamed s (D3Q15.INVERSEDIRECTIONS l)).1
                (D3Q15.INVERSEDIRECTIONS l)
              - (nextNodeMoments lat s l).fEq (D3Q15.INVERSEDIRECTIONS l)))
    ∧ (fNeqPre lat s l = 0 →
        lat.FOld (lat.streamed s (D3Q15.INVERSEDIRECTIONS l)).1
            (D3Q15.INVERSEDIRECTIONS l)
          - (nextNodeMoments lat s l).fEq (D3Q15.INVERSEDIRECTIONS l) = 0 →
        applyWrites F (siteWrites omega lat s) (s, D3Q15.INVERSEDIRECTIONS l) =
          D3Q15.CalculateFeq
            (D3Q15.CalculateDensityVelocityFEq (lat.FOld s)).density 0 0 0
            (D3Q15.INVERSEDIRECTIONS l)) := by
  have hdlt : lat.cutDistance s l < 3/4 := by rw [hd]; norm_num
  have hpre : ∀ a : Fin 3, uWallPre lat s l a = 0 := by
    intro a
    fin_cases a <;> simp [uWallPre, hvx, hvy, hvz]
  have hnext : ∀ a : Fin 3, nextNodeV lat s l a = 0 := by
    intro a
    fin_cases a <;> simp [nextNodeV, hfvx, hfvy, hfvz]
  have hu : ∀ a : Fin 3, uWall lat s l a = 0 := by
    intro a
    simp only [uWall, if_pos hdlt, if_pos hfar]
    rw [hpre a, hnext a]
    ring
  have hf : fNeq lat s l =
      1/2 * fNeqPre lat s l +
        1/2 * (lat.FOld (lat.streamed s (D3Q15.INVERSEDIRECTIONS l)).1
            (D3Q15.INVERSEDIRECTIONS l)
          - (nextNodeMoments lat s l).fEq (D3Q15.INVERSEDIRECTIONS l)) := by
    simp only [fNeq, if_pos hdlt, if_pos hfar]
    rw [hd]
    ring
  have hmain : applyWrites F (siteWrites omega lat s)
      (s, D3Q15.INVERSEDIRECTIONS l) =
      D3Q15.CalculateFeq
        (D3Q15.CalculateDensityVelocityFEq (lat.FOld s)).density 0 0 0
        (D3Q15.INVERSEDIRECTIONS l)
      + (1 + omega) *
          (1/2 * fNeqPre lat s l +
            1/2 * (lat.FOld (lat.streamed s (D3Q15.INVERSEDIRECTIONS l)).1
                (D3Q15.INVERSEDIRECTIONS l)
              - (nextNodeMoments lat s l).fEq (D3Q15.INVERSEDIRECTIONS l))) := by
    rw [siteWrites_boundary_slot omega lat s F l hb h0, boundaryValue,
      hu 0, hu 1, hu 2, hf]
  refine ⟨hmain, fun hz hfz => ?_⟩
  rw [hmain, hz, hfz]
  ring

/-- C7 (amended) witness: on the rest-equilibrium lattice both
non-equilibrium parts vanish and the stored boundary value is exactly the
plain equilibrium at the local density. -/
theorem claim7_amended_witness :
    fNeqPre latRest 0 1 = 0 ∧
    applyWrites (fun _ => 0) (siteWrites 1 latRest 0)
        (0, D3Q15.INVERSEDIRECTIONS 1) =
      D3Q15.CalculateFeq
        (D3Q15.CalculateDensityVelocityFEq (latRest.FOld 0)).density 0 0 0
        (D3Q15.INVERSEDIRECTIONS 1) :=
  ⟨by norm_num [fNeqPre, D3Q15.CalculateDensityVelocityFEq,
      D3Q15.CalculateFeq, latRest, D3Q15.W, D3Q15.CX, D3Q15.CY, D3Q15.CZ,
      D3Q15.INVERSEDIRECTIONS, Fin.sum_univ_succ],
   (claim7_amended 1 latRest 0 (fun _ => 0) 1 (by decide) (by decide) rfl
      (by norm_num [D3Q15.CalculateDensityVelocityFEq, latRest, D3Q15.W,
        D3Q15.CX, Fin.sum_univ_succ])
      (by norm_num [D3Q15.CalculateDensityVelocityFEq, latRest, D3Q15.W,
        D3Q15.CY, Fin.sum_univ_succ])
      (by norm_num [D3Q15.CalculateDensityVelocityFEq, latRest, D3Q15.W,
        D3Q15.CZ, Fin.sum_univ_succ])
      (by decide)
      (by norm_num [nextNodeMoments, D3Q15.CalculateDensityVelocityFEq,
        latRest, D3Q15.W, D3Q15.CX, D3Q15.INVERSEDIRECTIONS, Fin.sum_univ_succ])
      (by norm_num [nextNodeMoments, D3Q15.CalculateDensityVelocityFEq,
        latRest, D3Q15.W, D3Q15.CY, D3Q15.INVERSEDIRECTIONS, Fin.sum_univ_succ])
      (by norm_num [nextNodeMoments, D3Q15.CalculateDensityVelocityFEq,
        latRest, D3Q15.W, D3Q15.CZ, D3Q15.INVERSEDIRECTIONS,
        Fin.sum_univ_succ])).2
     (by norm_num [fNeqPre, D3Q15.CalculateDensityVelocityFEq,
        D3Q15.CalculateFeq, latRest, D3Q15.W, D3Q15.CX, D3Q15.CY, D3Q15.CZ,
        D3Q15.INVERSEDIRECTIONS, Fin.sum_univ_succ])
     (by norm_num [nextNodeMoments, D3Q15.CalculateDensityVelocityFEq,
        D3Q15.CalculateFeq, latRest, D3Q15.W, D3Q15.CX, D3Q15.CY, D3Q15.CZ,
        D3Q15.INVERSEDIRECTIONS, Fin.sum_univ_succ])⟩

end HemeLB.ImplGuoZhengShi

namespace HemeLB.colloids

/-- C8 counterexample: a raw wall-distance input of exactly 0 is not skipped
("no wall"); the code's strict `thisDistance < 0.0` test keeps it and stores
the degenerate zero fraction. -/
theorem claim8_counterexample :
    processWallDistance 0 = some 0 ∧ processWallDistance 0 ≠ none := by
  constructor
  · norm_num [processWallDistance]
  · simp [processWallDistance]

/-- C8 (amended): any raw wall-distance input ≥ 0.5 is stored as the wall
fraction exactly 0.5; any strictly negative raw input is recorded as having
no wall in that direction (skipped); a raw input of exactly 0 is kept as a
degenerate zero fraction. -/
theorem claim8_amended :
    (∀ x : ℚ, 1/2 ≤ x → processWallDistance x = some (1/2)) ∧
    (∀ x : ℚ, x < 0 → processWallDistance x = none) ∧
    processWallDistance 0 = some 0 := by
  refine ⟨?_, ?_, ?_⟩
  · intro x hx
    rw [processWallDistance, if_neg (by linarith)]
    rcases lt_or_eq_of_le hx with h | h
    · rw [if_pos h]
    · rw [if_neg (by rw [← h]; exact lt_irrefl _), ← h]
  · intro x hx
    rw [processWallDistance, if_pos hx]
  · norm_num [processWallDistance]

/-- C8 witness: the amended clamp evaluated at raw inputs 1 and −1. -/
theorem claim8_amended_witness :
    processWallDistance 1 = some (1/2) ∧ processWallDistance (-1) = none :=
  ⟨claim8_amended.1 1 (by norm_num), claim8_amended.2.1 (-1) (by norm_num)⟩

end HemeLB.colloids

namespace HemeLB.vis

/-- C9: for any pixel coordinate below 2³¹, `GetI` returns exactly the value
last passed to `SetI` and `GetJ` the value last passed to `SetJ`; and
`SetGlyph`/`SetStreakline`, which keep their flags in the most significant
bit of the same two words, leave `GetI` and `GetJ` unchanged while
`IsGlyph`/`IsStreakline` return exactly the flag last set. -/
theorem claim9_colpixel (p : ColPixelWords) (iI iJ : ℕ) (b : Bool)
    (hI : iI < 2 ^ 31) (hJ : iJ < 2 ^ 31) :
    GetI (SetI p iI) = iI ∧
    GetJ (SetJ p iJ) = iJ ∧
    GetI (SetGlyph p b) = GetI p ∧
    GetJ (SetGlyph p b) = GetJ p ∧
    GetI (SetStreakline p b) = GetI p ∧
    GetJ (SetStreakline p b) = GetJ p ∧
    IsGlyph (SetGlyph p b) = b ∧
    IsStreakline (SetStreakline p b) = b := by
  refine ⟨?_, ?_, ?_, ?_, ?_, ?_, ?_, ?_⟩
  · exact lor_land_msb_mask iI p.mI hI
  · exact lor_land_msb_mask iJ p.mJ hJ
  · cases b with
    | true =>
        show (p.mI ||| 2 ^ 31) &&& (2 ^ 31 - 1) = p.mI &&& (2 ^ 31 - 1)
        exact lor_msb_mask p.mI
    | false =>
        show (p.mI &&& (2 ^ 31 - 1)) &&& (2 ^ 31 - 1) = p.mI &&& (2 ^ 31 - 1)
        exact land_mask_mask p.mI
  · cases b <;> rfl
  · cases b <;> rfl
  · cases b with
    | true =>
        show (p.mJ ||| 2 ^ 31) &&& (2 ^ 31 - 1) = p.mJ &&& (2 ^ 31 - 1)
        exact lor_msb_mask p.mJ
    | false =>
        show (p.mJ &&& (2 ^ 31 - 1)) &&& (2 ^ 31 - 1) = p.mJ &&& (2 ^ 31 - 1)
        exact land_mask_mask p.mJ
  · cases b with
    | true =>
        show ((p.mI ||| 2 ^ 31) &&& 2 ^ 31 != 0) = true
        rw [lor_msb_land_msb p.mI]
        norm_num
    | false =>
        show ((p.mI &&& (2 ^ 31 - 1)) &&& 2 ^ 31 != 0) = false
        rw [land_mask_land_msb p.mI]
        rfl
  · cases b with
    | true =>
        show ((p.mJ ||| 2 ^ 31) &&& 2 ^ 31 != 0) = true
        rw [lor_msb_land_msb p.mJ]
        norm_num
    | false =>
        show ((p.mJ &&& (2 ^ 31 - 1)) &&& 2 ^ 31 != 0) = false
        rw [land_mask_land_msb p.mJ]
        rfl

/-- C9 witness: the accessor identities at a concrete pixel whose words have
all 32 bits set, coordinates 5 and 7, and the glyph/streakline flag true. -/
theorem claim9_colpixel_witness :
    (5 < 2 ^ 31 ∧ 7 < 2 ^ 31) ∧
    (GetI (SetI ⟨2 ^ 32 - 1, 2 ^ 32 - 1⟩ 5) = 5 ∧
     GetJ (SetJ ⟨2 ^ 32 - 1, 2 ^ 32 - 1⟩ 7) = 7 ∧
     GetI (SetGlyph ⟨2 ^ 32 - 1, 2 ^ 32 - 1⟩ true) = GetI ⟨2 ^ 32 - 1, 2 ^ 32 - 1⟩ ∧
     GetJ (SetGlyph ⟨2 ^ 32 - 1, 2 ^ 32 - 1⟩ true) = GetJ ⟨2 ^ 32 - 1, 2 ^ 32 - 1⟩ ∧
     GetI (SetStreakline ⟨2 ^ 32 - 1, 2 ^ 32 - 1⟩ true) = GetI ⟨2 ^ 32 - 1, 2 ^ 32 - 1⟩ ∧
     GetJ (SetStreakline ⟨2 ^ 32 - 1, 2 ^ 32 - 1⟩ true) = GetJ ⟨2 ^ 32 - 1, 2 ^ 32 - 1⟩ ∧
     IsGlyph (SetGlyph ⟨2 ^ 32 - 1, 2 ^ 32 - 1⟩ true) = true ∧
     IsStreakline (SetStreakline ⟨2 ^ 32 - 1, 2 ^ 32 - 1⟩ true) = true) :=
  ⟨⟨by norm_num, by norm_num⟩,
   claim9_colpixel ⟨2 ^ 32 - 1, 2 ^ 32 - 1⟩ 5 7 true (by norm_num) (by norm_num)⟩

end HemeLB.vis

namespace HemeLB.colloids

/-- C10: `DoSomeThingsToParticle` returns `false` (particle not kept)
whenever the particle's global position rounded to the nearest lattice site
is not a local fluid site; and when that site is a local fluid site that is
neither a wall-edge site nor of inlet or outlet type, it returns `true` and
leaves the particle untouched, applying no boundary condition. -/
theorem claim10_particle_dispatch
    (conditionsWall conditionsInlet conditionsOutlet : List BoundaryConditionFn)
    (lat : LatticeDataModel) (particle : Particle) :
    (lat.contiguousSiteId (roundedSitePosition particle) = none →
      (DoSomeThingsToParticle conditionsWall conditionsInlet conditionsOutlet
          lat particle).1 = false)
    ∧ (∀ siteId : ℕ,
        lat.contiguousSiteId (roundedSitePosition particle) = some siteId →
        lat.isEdge siteId = false →
        lat.siteType siteId ≠ SiteType.inlet →
        lat.siteType siteId ≠ SiteType.outlet →
        DoSomeThingsToParticle conditionsWall conditionsInlet conditionsOutlet
            lat particle = (true, particle)) := by
  constructor
  · intro h
    rw [DoSomeThingsToParticle, h]
  · intro siteId h hEdge hInlet hOutlet
    rw [DoSomeThingsToParticle, h]
    simp only [hEdge]
    rw [if_pos]
    exact ⟨by simp, hInlet, hOutlet⟩

/-- C10 witness: both dispatch outcomes at the origin particle — dropped on
the no-fluid lattice, kept untouched on the plain-fluid lattice. -/
theorem claim10_particle_dispatch_witness :
    (DoSomeThingsToParticle [] [] [] latNoFluid ⟨(0, 0, 0)⟩).1 = false ∧
    DoSomeThingsToParticle [] [] [] latPlainFluid ⟨(0, 0, 0)⟩ =
      (true, ⟨(0, 0, 0)⟩) :=
  ⟨(claim10_particle_dispatch [] [] [] latNoFluid ⟨(0, 0, 0)⟩).1 rfl,
   (claim10_particle_dispatch [] [] [] latPlainFluid ⟨(0, 0, 0)⟩).2 0 rfl rfl
     (by decide) (by decide)⟩

end HemeLB.colloids
